import Mathlib

/-!
Verification of the `@10d3/printflow` Apliiq API client.

The development shallowly embeds the TypeScript source:
* `src/types.ts` — the zod schemas become decidable Boolean checkers over a
  `Json` model of JavaScript values;
* `src/client.ts` — `getProducts`, `getProduct`, `createOrder`, the cache
  clearing methods, the request-signing interceptor and `handleError` become
  pure Lean functions over an explicit cache state;
* the `lru-cache` dependency is not part of the repository, so the cache store
  itself is modelled from the specification's contract (see `Cache`).
-/

/-- A JavaScript/JSON value as handled by the client.  Numbers are modelled as
integers (every number appearing in the claims is integral). -/
inductive Json where
  | null
  | bool (b : Bool)
  | num (n : Int)
  | str (s : String)
  | arr (elems : List Json)
  | obj (fields : List (String × Json))

/-- First-match association-list lookup, the semantics of reading a field from
a JavaScript object literal. -/
def alistLookup {α : Type} : List (String × α) → String → Option α
  | [], _ => none
  | (k, v) :: rest, key => if k = key then some v else alistLookup rest key

/-- `j[key]` for a JavaScript value: `undefined` (here `none`) unless `j` is an
object with the field. -/
def Json.getField : Json → String → Option Json
  | .obj fields, key => alistLookup fields key
  | _, _ => none

/-- JavaScript truthiness of a value. -/
def jsTruthy : Json → Bool
  | .null => false
  | .bool b => b
  | .num n => n != 0
  | .str s => !s.isEmpty
  | .arr _ => true
  | .obj _ => true

/-- JavaScript `typeof` (as a string), for the normalizer's error message.
`typeof null` is `"object"`. -/
def jsTypeof : Json → String
  | .null => "object"
  | .bool _ => "boolean"
  | .num _ => "number"
  | .str _ => "string"
  | .arr _ => "object"
  | .obj _ => "object"

mutual

/-- JavaScript string coercion, as used by the template literal
`` `${product.Id}` `` when building cache keys. -/
def jsToString : Json → String
  | .null => "null"
  | .bool true => "true"
  | .bool false => "false"
  | .num n => toString n
  | .str s => s
  | .obj _ => "[object Object]"
  | .arr xs => jsToStringList xs

/-- `Array.prototype.toString` joins elements with commas. -/
def jsToStringList : List Json → String
  | [] => ""
  | [x] => jsToString x
  | x :: y :: xs => jsToString x ++ "," ++ jsToStringList (y :: xs)

end

/- ===== Response normalizer (src/client.ts, getProducts lines 114-135) ===== -/

/-- The fixed priority order of candidate list fields probed for an object
response (`possibleProductKeys` in `getProducts`). -/
def possibleProductKeys : List String := ["Products", "products", "items"]

/-- `Array.isArray(d[k])`. -/
def isArrayField (d : Json) (k : String) : Bool :=
  match d.getField k with
  | some (Json.arr _) => true
  | _ => false

/-- The array stored at field `k` of `d` (the call sites only use it when
`isArrayField d k` holds). -/
def arrayAt (d : Json) (k : String) : List Json :=
  match d.getField k with
  | some (Json.arr ps) => ps
  | _ => []

/-- The shape-normalization block of `getProducts` (src/client.ts lines
114-135): an array input takes its first element's `Products` field; an object
input probes `possibleProductKeys` in order and falls back to the empty array;
any other top-level type raises `Unexpected response type: <typeof>`. -/
def normalizeProducts (data : Json) : Except String (List Json) :=
  match data with
  | Json.arr xs =>
    match xs with
    | [] => Except.error "Unexpected array structure - missing Products key"
    | first :: _ =>
      match first.getField "Products" with
      | some (Json.arr ps) => Except.ok ps
      | _ => Except.error "Unexpected array structure - missing Products key"
  | Json.obj fields =>
    match possibleProductKeys.find? (isArrayField (Json.obj fields)) with
    | some k => Except.ok (arrayAt (Json.obj fields) k)
    | none => Except.ok []
  | other => Except.error ("Unexpected response type: " ++ jsTypeof other)

/- ===== Schema checkers (src/types.ts) ===== -/

/-- Required `z.string()` field. -/
def isStrOpt : Option Json → Bool
  | some (Json.str _) => true
  | _ => false

/-- Required `z.number()` field. -/
def isNumOpt : Option Json → Bool
  | some (Json.num _) => true
  | _ => false

/-- `z.string().optional()` field. -/
def optStrOpt : Option Json → Bool
  | none => true
  | some (Json.str _) => true
  | _ => false

/-- `z.number().optional()` field. -/
def optNumOpt : Option Json → Bool
  | none => true
  | some (Json.num _) => true
  | _ => false

/-- Required field that must satisfy a sub-schema. -/
def fieldIs (p : Json → Bool) : Option Json → Bool
  | some j => p j
  | none => false

/-- Required `z.array(sub)` field. -/
def fieldArrAll (p : Json → Bool) : Option Json → Bool
  | some (Json.arr xs) => xs.all p
  | _ => false

/-- `z.array(sub).optional()` field. -/
def optArrAll (p : Json → Bool) : Option Json → Bool
  | none => true
  | some (Json.arr xs) => xs.all p
  | _ => false

def isObj : Json → Bool
  | Json.obj _ => true
  | _ => false

/-- `ProductSizeSchema`. -/
def productSizeOk (j : Json) : Bool :=
  isObj j
  && isStrOpt (j.getField "Weight")
  && isNumOpt (j.getField "PlusSize_Fee")
  && isNumOpt (j.getField "Id")
  && isStrOpt (j.getField "Name")

/-- `ColorSchema`. -/
def colorOk (j : Json) : Bool :=
  isObj j && isNumOpt (j.getField "Id") && isStrOpt (j.getField "Name")

/-- `ServiceColorSchema`. -/
def serviceColorOk (j : Json) : Bool :=
  isObj j
  && isStrOpt (j.getField "HexColorCode")
  && isStrOpt (j.getField "PantoneColorCode")
  && isStrOpt (j.getField "EmbroideryColorCode")
  && isStrOpt (j.getField "RBG")

/-- `ServiceSchema`. -/
def serviceOk (j : Json) : Bool :=
  isObj j
  && optStrOpt (j.getField "Alt_Name")
  && optArrAll serviceColorOk (j.getField "AvailableColors")
  && isNumOpt (j.getField "Id")
  && isStrOpt (j.getField "Name")

/-- The inline `SavedDesign` object of `SubscriptionSchema`. -/
def savedDesignOk (j : Json) : Bool :=
  isObj j && isNumOpt (j.getField "ProductId") && isNumOpt (j.getField "Id")

/-- The inline placement objects of `SubscriptionSchema`. -/
def placementOk (j : Json) : Bool :=
  isObj j && isNumOpt (j.getField "Id") && isStrOpt (j.getField "Name")

/-- `SubscriptionSchema`. -/
def subscriptionOk (j : Json) : Bool :=
  isObj j
  && fieldIs savedDesignOk (j.getField "SavedDesign")
  && isNumOpt (j.getField "RemainInventory")
  && isStrOpt (j.getField "Type")
  && fieldArrAll placementOk (j.getField "Placements")
  && isNumOpt (j.getField "Id")
  && isStrOpt (j.getField "Name")
  && isStrOpt (j.getField "ImagePath")

/-- `LocationSchema`. -/
def locationOk (j : Json) : Bool :=
  isObj j && isNumOpt (j.getField "Id") && isStrOpt (j.getField "Name")

/-- `ProductSchema`. -/
def productOk (j : Json) : Bool :=
  isObj j
  && isStrOpt (j.getField "Code")
  && isStrOpt (j.getField "SKU")
  && fieldArrAll productSizeOk (j.getField "Sizes")
  && optStrOpt (j.getField "Features")
  && optStrOpt (j.getField "Benefits")
  && optArrAll colorOk (j.getField "Colors")
  && optArrAll serviceOk (j.getField "Services")
  && optNumOpt (j.getField "Price")
  && optStrOpt (j.getField "Currency_Code")
  && optArrAll subscriptionOk (j.getField "Subscriptions")
  && optArrAll locationOk (j.getField "Locations")
  && optStrOpt (j.getField "DetailName")
  && isNumOpt (j.getField "Id")
  && isStrOpt (j.getField "Name")
  && optStrOpt (j.getField "Description")

/-- The regex `^\d+\.\d{2}$` of `LineItemSchema.price`: one or more digits, a
dot, exactly two digits. -/
def priceRegexOk (s : String) : Bool :=
  let ds := s.data.takeWhile Char.isDigit
  !ds.isEmpty &&
    (match s.data.drop ds.length with
     | ['.', c1, c2] => c1.isDigit && c2.isDigit
     | _ => false)

/-- `!!data.field` for a string-or-absent field: present, a string, and
non-empty (JavaScript truthiness of the refined value). -/
def strFieldTruthy (j : Json) (k : String) : Bool :=
  match j.getField k with
  | some (Json.str s) => !s.isEmpty
  | _ => false

/-- `z.number().positive()` field. -/
def posNumOpt : Option Json → Bool
  | some (Json.num n) => decide (0 < n)
  | _ => false

/-- `LineItemSchema.quantity`. -/
def quantityOk (j : Json) : Bool := posNumOpt (j.getField "quantity")

/-- `LineItemSchema.price`. -/
def priceOk (j : Json) : Bool :=
  match j.getField "price" with
  | some (Json.str s) => priceRegexOk s
  | _ => false

/-- `s.startsWith(pre)`, stated on the character lists so that it computes by
kernel reduction. -/
def strStartsWith (s pre : String) : Bool := pre.data.isPrefixOf s.data

/-- `LineItemSchema.sku` (`z.string().startsWith('APQ-')`). -/
def skuOk (j : Json) : Bool :=
  match j.getField "sku" with
  | some (Json.str s) => strStartsWith s "APQ-"
  | _ => false

/-- `LineItemSchema`, including the `.refine` requiring a truthy title or
name. -/
def lineItemOk (j : Json) : Bool :=
  isObj j
  && isStrOpt (j.getField "id")
  && optStrOpt (j.getField "title")
  && optStrOpt (j.getField "name")
  && quantityOk j
  && priceOk j
  && skuOk j
  && optNumOpt (j.getField "grams")
  && (strFieldTruthy j "title" || strFieldTruthy j "name")

/-- `data.country_code === 'US'` in the `superRefine` of
`ShippingAddressSchema`. -/
def isUSAddress (j : Json) : Bool :=
  match j.getField "country_code" with
  | some (Json.str s) => s == "US"
  | _ => false

/-- `ShippingAddressSchema.country_code` (`z.string().length(2)`). -/
def countryCodeOk (j : Json) : Bool :=
  match j.getField "country_code" with
  | some (Json.str s) => s.length == 2
  | _ => false

/-- `ShippingAddressSchema`, including the `superRefine` demanding a truthy
`province_code` for US addresses. -/
def shippingAddressOk (j : Json) : Bool :=
  isObj j
  && isStrOpt (j.getField "first_name")
  && isStrOpt (j.getField "last_name")
  && isStrOpt (j.getField "address1")
  && optStrOpt (j.getField "address2")
  && isStrOpt (j.getField "city")
  && isStrOpt (j.getField "zip")
  && isStrOpt (j.getField "province")
  && isStrOpt (j.getField "country")
  && countryCodeOk j
  && optStrOpt (j.getField "province_code")
  && !(isUSAddress j && !strFieldTruthy j "province_code")

/-- The inline shipping-line objects of `ApliiqOrderSchema`
(`code ∈ {standard, upgraded, rush}`). -/
def shippingLineOk (j : Json) : Bool :=
  isObj j
  && (match j.getField "code" with
      | some (Json.str s) => s == "standard" || s == "upgraded" || s == "rush"
      | _ => false)

/-- `ApliiqOrderSchema` (`billing_address` is `z.any().optional()`, hence
unchecked). -/
def apliiqOrderOk (j : Json) : Bool :=
  isObj j
  && posNumOpt (j.getField "number")
  && isStrOpt (j.getField "name")
  && posNumOpt (j.getField "order_number")
  && (match j.getField "line_items" with
      | some (Json.arr xs) => !xs.isEmpty && xs.all lineItemOk
      | _ => false)
  && fieldIs shippingAddressOk (j.getField "shipping_address")
  && optArrAll shippingLineOk (j.getField "shipping_lines")

/- ===== Error taxonomy (src/errors.ts, src/client.ts handleError) ===== -/

/-- `ApliiqError` from `src/errors.ts`. -/
structure ApliiqError where
  message : String
  statusCode : Nat
  details : Option Json

/-- The classes of caught values distinguished by `handleError`:
a `z.ZodError` (with its violation messages), an axios error (optional
response status, optional `response.data.message`, the error's own `message`,
and the optional response body), any other `Error` instance, or a thrown
non-`Error` value. -/
inductive CaughtError where
  | zod (messages : List String)
  | axios (respStatus : Option Nat) (respDataMessage : Option String)
          (errMessage : String) (respData : Option Json)
  | jsError (message : String)
  | nonError

/-- `handleError` from `src/client.ts` (lines 255-275).  JavaScript `||`
fallbacks are modelled faithfully: an empty `response.data.message` or a zero
status falls through. -/
def handleError : CaughtError → ApliiqError
  | .zod msgs =>
      ⟨"Validation failed: " ++ String.intercalate ", " msgs, 400, none⟩
  | .axios st dm em _ =>
      ⟨(match dm with
        | some s => if s.isEmpty then em else s
        | none => em),
       (match st with
        | some n => if n == 0 then 500 else n
        | none => 500),
       none⟩
  | .jsError m => ⟨m, 500, none⟩
  | .nonError => ⟨"Unknown error", 500, none⟩

/- ===== Request signer (src/client.ts, request interceptor lines 67-87) ===== -/

/-- The sixteen hexadecimal digit characters. -/
def hexDigitChars : List Char := "0123456789abcdef".data

/-- One nibble as a lowercase hex character. -/
def hexDigit (n : Nat) : Char := hexDigitChars.getD n '0'

/-- One byte as two lowercase hex characters
(`crypto.randomBytes(16).toString("hex")`). -/
def hexByte (b : Nat) : String :=
  String.mk [hexDigit (b / 16 % 16), hexDigit (b % 16)]

/-- Hex encoding of a byte sequence. -/
def hexEncode : List Nat → String
  | [] => ""
  | b :: rest => hexByte b ++ hexEncode rest

/-- The standard base64 alphabet. -/
def b64Char (n : Nat) : Char :=
  "ABCDEFGHIJKLMNOPQRSTUVWXYZabcdefghijklmnopqrstuvwxyz0123456789+/".data.getD n 'A'

/-- Standard base64 with padding (`Buffer.from(data).toString("base64")`). -/
def base64Encode : List Nat → String
  | [] => ""
  | [b1] =>
      String.mk [b64Char (b1 / 4), b64Char (b1 % 4 * 16)] ++ "=="
  | [b1, b2] =>
      String.mk [b64Char (b1 / 4), b64Char (b1 % 4 * 16 + b2 / 16),
                 b64Char (b2 % 16 * 4)] ++ "="
  | b1 :: b2 :: b3 :: rest =>
      String.mk [b64Char (b1 / 4), b64Char (b1 % 4 * 16 + b2 / 16),
                 b64Char (b2 % 16 * 4 + b3 / 64), b64Char (b3 % 64)]
        ++ base64Encode rest

/-- The bytes of a string (exact for the ASCII payloads the client signs;
multi-byte UTF-8 is not needed by any claim). -/
def strBytes (s : String) : List Nat := s.data.map Char.toNat

/-- A lowercase hexadecimal character (`0`-`9`, `a`-`f`). -/
def isLowerHexChar (ch : Char) : Bool :=
  ch.isDigit || ('a' ≤ ch && ch ≤ 'f')

/-- The request interceptor of `src/client.ts` (lines 67-87).  `hmacBase64`
abstracts the external `crypto` collaborator: keyed by its first argument, it
returns the base64 HMAC-SHA256 of its second.  `serializedBody` is the
`JSON.stringify` output for the request body, absent when there is no body.
The result is the `(header name, header value)` pair attached to the request.
-/
def authHeader (hmacBase64 : String → String → String)
    (appId sharedSecret : String) (nowSec : Nat) (nonceBytes : List Nat)
    (serializedBody : Option String) : String × String :=
  let rts := toString nowSec
  let state := hexEncode nonceBytes
  let data := match serializedBody with
    | some s => s
    | none => ""
  let base64Content := base64Encode (strBytes data)
  let signatureData := appId ++ rts ++ state ++ base64Content
  let sig := hmacBase64 sharedSecret signatureData
  ("Authorization", "x-apliiq-auth " ++ rts ++ ":" ++ sig ++ ":" ++ appId ++ ":" ++ state)

/- ===== Cache (modelled from the spec) ===== -/

/-- Modelled from the spec: `CacheEntry<T>` of section 3 — the `lru-cache`
dependency is outside the repository, so the store follows the
specification's contract: `{value, insertedAt, ttlMs}`, stale once
`now - insertedAt > ttlMs`. -/
structure CacheEntry where
  value : Json
  insertedAt : Nat
  ttlMs : Nat

/-- Modelled from the spec: a capacity-bounded key-value store with LRU
eviction; entries are kept most-recently-used first. -/
structure Cache where
  maxEntries : Nat
  entries : List (String × CacheEntry)

/-- Modelled from the spec: an entry is stale once `now - insertedAt > ttlMs`.
-/
def CacheEntry.staleAt (e : CacheEntry) (now : Nat) : Bool :=
  decide (e.ttlMs < now - e.insertedAt)

/-- Modelled from the spec: the value visible at `key`, `none` when the key
was never set, was evicted, or its entry is stale (the staleness check runs on
every read). -/
def Cache.peek (c : Cache) (key : String) (now : Nat) : Option Json :=
  match alistLookup c.entries key with
  | some e => if e.staleAt now then none else some e.value
  | none => none

/-- Modelled from the spec: `has` (with `updateAgeOnHas: false`, it performs
the same staleness check without touching recency). -/
def Cache.has (c : Cache) (key : String) (now : Nat) : Bool :=
  (c.peek key now).isSome

/-- Modelled from the spec: the recency update a `get` performs — a fresh
entry moves to the front of the eviction order. -/
def Cache.touch (c : Cache) (key : String) (now : Nat) : Cache :=
  match alistLookup c.entries key with
  | some e =>
      if e.staleAt now then c
      else ⟨c.maxEntries, (key, e) :: c.entries.filter (fun p => p.1 != key)⟩
  | none => c

/-- Modelled from the spec: `set` replaces any entry at the key, inserts the
new entry as most recent, and evicts from the least-recently-used end when
over capacity. -/
def Cache.set (c : Cache) (key : String) (v : Json) (ttl : Nat) (now : Nat) :
    Cache :=
  ⟨c.maxEntries,
   ((key, ⟨v, now, ttl⟩) :: c.entries.filter (fun p => p.1 != key)).take
     c.maxEntries⟩

/-- Modelled from the spec: `delete`. -/
def Cache.delete (c : Cache) (key : String) : Cache :=
  ⟨c.maxEntries, c.entries.filter (fun p => p.1 != key)⟩

/-- Modelled from the spec: `keys()`. -/
def Cache.keysList (c : Cache) : List String := c.entries.map (·.1)

/- ===== Client configuration (src/client.ts CacheConfig, src/types.ts) ===== -/

/-- The `products` block of `CacheConfig`. -/
structure ProductsCacheConfig where
  ttl : Option Nat
  batchTTL : Option Nat

/-- `CacheConfig` from `src/client.ts`. -/
structure CacheConfig where
  enabled : Bool
  max : Option Nat
  ttl : Option Nat
  staleWhileRevalidate : Option Bool
  products : Option ProductsCacheConfig

/-- `ApliiqConfig` (as extended by the module augmentation in
`src/client.ts`). -/
structure ApliiqConfig where
  appId : String
  sharedSecret : String
  endpoint : Option String
  timeout : Option Nat
  cache : Option CacheConfig

/-- `this.cacheEnabled = config.cache?.enabled ?? false`. -/
def cacheEnabled (cfg : ApliiqConfig) : Bool :=
  (cfg.cache.map (·.enabled)).getD false

/-- The constructor-level cache TTL, `config.cache?.ttl ?? 1000 * 60 * 5`,
which `lru-cache` applies when a `set` passes no TTL of its own. -/
def defaultTtl (cfg : ApliiqConfig) : Nat :=
  (cfg.cache.bind (·.ttl)).getD 300000

/-- The TTL applied to the product-list entry:
`config.cache?.products?.batchTTL ?? config.cache?.ttl`, falling back to the
constructor default when both are absent. -/
def listTtl (cfg : ApliiqConfig) : Nat :=
  ((cfg.cache.bind (fun c => c.products.bind (·.batchTTL))).orElse
    (fun _ => cfg.cache.bind (·.ttl))).getD (defaultTtl cfg)

/-- The TTL applied to single-product entries:
`config.cache?.products?.ttl ?? config.cache?.ttl`, falling back to the
constructor default. -/
def productTtl (cfg : ApliiqConfig) : Nat :=
  ((cfg.cache.bind (fun c => c.products.bind (·.ttl))).orElse
    (fun _ => cfg.cache.bind (·.ttl))).getD (defaultTtl cfg)

/-- `` `${this.cacheKeyPrefix}products:all` `` — the product-list cache key. -/
def listKey : String := "apliiq:products:all"

/-- `` `${this.cacheKeyPrefix}product:${id}` `` — a per-product cache key. -/
def productKey (idStr : String) : String := "apliiq:product:" ++ idStr

/- ===== Public operations (src/client.ts) ===== -/

/-- Outcome of one `getProducts` call: its result, the cache afterwards, and
whether an upstream transport call was made. -/
structure ProductsResult where
  result : Except ApliiqError (List Json)
  cache : Cache
  transportCalled : Bool

/-- The `as Product[]` cast of a cached value on the list-key hit path; only
arrays are ever stored under the list key. -/
def asProductList : Json → List Json
  | Json.arr xs => xs
  | _ => []

/-- The body of `productsArray.forEach(...)` in `getProducts`: cache the
product under its per-product key when `product.Id` is truthy. -/
def setStep (cfg : ApliiqConfig) (now : Nat) (acc : Cache) (p : Json) : Cache :=
  match p.getField "Id" with
  | some idv =>
      if jsTruthy idv then acc.set (productKey (jsToString idv)) p (productTtl cfg) now
      else acc
  | none => acc

/-- `getProducts` from `src/client.ts` (lines 101-164): cache-hit short
circuit, shape normalization, list + per-product cache population.  `body` is
the decoded body of a successful upstream response; the returned elements are
not schema-validated. -/
def getProducts (cfg : ApliiqConfig) (c : Cache) (now : Nat) (body : Json) :
    ProductsResult :=
  if cacheEnabled cfg && c.has listKey now then
    { result := Except.ok (asProductList ((c.peek listKey now).getD Json.null)),
      cache := c.touch listKey now,
      transportCalled := false }
  else
    match normalizeProducts body with
    | Except.error msg =>
        { result := Except.error (handleError (CaughtError.jsError msg)),
          cache := c, transportCalled := true }
    | Except.ok ps =>
        if cacheEnabled cfg then
          let c1 := c.set listKey (Json.arr ps) (listTtl cfg) now
          { result := Except.ok ps,
            cache := ps.foldl (setStep cfg now) c1,
            transportCalled := true }
        else
          { result := Except.ok ps, cache := c, transportCalled := true }

/-- Outcome of one `getProduct` call. -/
structure ProductResult where
  result : Except ApliiqError Json
  cache : Cache
  transportCalled : Bool

/-- `getProduct` from `src/client.ts` (lines 169-197).  `body` is the decoded
body of a successful upstream response.  The violation messages produced by
the schema library on a parse failure are not modelled (no claim depends on
them); zod's stripping of unknown keys is likewise not modelled. -/
def getProduct (cfg : ApliiqConfig) (c : Cache) (now : Nat) (id : Int)
    (body : Json) : ProductResult :=
  let key := productKey (toString id)
  if cacheEnabled cfg && c.has key now then
    { result := Except.ok ((c.peek key now).getD Json.null),
      cache := c.touch key now,
      transportCalled := false }
  else
    let productData := match body.getField "data" with
      | some d => if jsTruthy d then d else body
      | none => body
    if productOk productData then
      if cacheEnabled cfg then
        { result := Except.ok productData,
          cache := c.set key productData (productTtl cfg) now,
          transportCalled := true }
      else
        { result := Except.ok productData, cache := c, transportCalled := true }
    else
      { result := Except.error (handleError (CaughtError.zod [])),
        cache := c, transportCalled := true }

/-- Outcome of one `createOrder` call. -/
structure OrderResult where
  result : Except ApliiqError Json
  transportCalled : Bool

/-- `createOrder` from `src/client.ts` (lines 202-210): the payload is posted
without being validated, and the RESPONSE body is then parsed against
`ApliiqOrderSchema`.  `responseBody` is the decoded body of the upstream
response to the post. -/
def createOrder (order : Json) (responseBody : Json) : OrderResult :=
  if apliiqOrderOk responseBody then
    { result := Except.ok responseBody, transportCalled := true }
  else
    { result := Except.error (handleError (CaughtError.zod [])),
      transportCalled := true }

/-- `clearProductCache` from `src/client.ts` (lines 225-231). -/
def clearProductCache (cfg : ApliiqConfig) (c : Cache) (id : Int) : Cache :=
  if cacheEnabled cfg then c.delete (productKey (toString id)) else c

/-- `clearProductsCache` from `src/client.ts` (lines 236-253): delete the list
key, then delete every key starting with the per-product key prefix. -/
def clearProductsCache (cfg : ApliiqConfig) (c : Cache) : Cache :=
  if cacheEnabled cfg then
    let c1 := c.delete listKey
    (c1.keysList.filter (fun k => strStartsWith k "apliiq:product:")).foldl
      Cache.delete c1
  else c

/- ===== Concrete example values (README / spec examples) ===== -/

/-- An empty cache with the default capacity of 1000. -/
def emptyCache : Cache := ⟨1000, []⟩

/-- A configuration with caching enabled and all TTL tiers defaulted. -/
def cfgCacheOn : ApliiqConfig :=
  ⟨"app", "secret", none, none, some ⟨true, none, none, none, none⟩⟩

/-- A configuration without a cache block (caching disabled). -/
def cfgNoCache : ApliiqConfig := ⟨"app", "secret", none, none, none⟩

/-- The README's example line item (two-decimal price, `APQ-` SKU). -/
def exampleLineItem : Json :=
  Json.obj [("id", Json.str "1511138222"),
            ("title", Json.str "cotton heritage polly pocket"),
            ("quantity", Json.num 1),
            ("price", Json.str "45.50"),
            ("sku", Json.str "APQ-1998244S7A1")]

/-- The README's example US shipping address (with `province_code`). -/
def exampleUSAddress : Json :=
  Json.obj [("first_name", Json.str "john"),
            ("last_name", Json.str "smith"),
            ("address1", Json.str "1692 Avenue du Mont-Royal Est"),
            ("city", Json.str "los angeles"),
            ("zip", Json.str "90013"),
            ("province", Json.str "California"),
            ("country", Json.str "United States"),
            ("country_code", Json.str "US"),
            ("province_code", Json.str "CA")]

/-- The README's example order, valid under `ApliiqOrderSchema`. -/
def exampleOrder : Json :=
  Json.obj [("number", Json.num 1006),
            ("name", Json.str "#1006"),
            ("order_number", Json.num 1006),
            ("line_items", Json.arr [exampleLineItem]),
            ("shipping_address", exampleUSAddress)]

/-- An order that violates `ApliiqOrderSchema` (`line_items` must be
non-empty). -/
def badOrderExample : Json :=
  Json.obj [("number", Json.num 1006),
            ("name", Json.str "#1006"),
            ("order_number", Json.num 1006),
            ("line_items", Json.arr []),
            ("shipping_address", exampleUSAddress)]

/-- The README's documented order-creation response body. -/
def idResponse : Json := Json.obj [("id", Json.num 567890)]


/- ===== Shared lemmas ===== -/

theorem alistLookup_filter_ne {α : Type} (l : List (String × α)) (k k' : String)
    (h : k' ≠ k) :
    alistLookup (l.filter (fun p => p.1 != k)) k' = alistLookup l k' := by
  induction l with
  | nil => rfl
  | cons hd tl ih =>
    by_cases hhd : hd.1 = k
    · have hf : (hd.1 != k) = false := by simp [hhd]
      have hne : hd.1 ≠ k' := by rw [hhd]; exact fun hx => h hx.symm
      simp [List.filter, hf, alistLookup, hne, ih]
    · have hf : (hd.1 != k) = true := by simp [hhd]
      simp only [List.filter, hf, alistLookup]
      split <;> simp [ih]

theorem alistLookup_filter_self {α : Type} (l : List (String × α)) (k : String) :
    alistLookup (l.filter (fun p => p.1 != k)) k = none := by
  induction l with
  | nil => rfl
  | cons hd tl ih =>
    by_cases hhd : hd.1 = k
    · have hf : (hd.1 != k) = false := by simp [hhd]
      simp [List.filter, hf, ih]
    · have hf : (hd.1 != k) = true := by simp [hhd]
      simp [List.filter, hf, alistLookup, hhd, ih]

theorem alistLookup_eq_none_of_not_mem {α : Type} (l : List (String × α))
    (k : String) (h : k ∉ l.map Prod.fst) :
    alistLookup l k = none := by
  induction l with
  | nil => rfl
  | cons hd tl ih =>
    simp only [List.map, List.mem_cons, not_or] at h
    have : hd.1 ≠ k := fun hx => h.1 hx.symm
    simp [alistLookup, this, ih h.2]

/- ===== C1 ===== -/

/-- C1 counterexample: contrary to the claim, an object body with none of the
known list fields (here the empty object `{}`) does NOT fail — `getProducts`'s
normalizer returns the empty array. -/
theorem C1_empty_object_not_error : normalizeProducts (Json.obj []) = Except.ok [] := rfl

/-- C1 (amended): the normalizer tries the array shape first (first element's
`Products` field), else probes the known field names `Products`, `products`,
`items` in that fixed priority order taking the first array found; an object
with none of those fields yields the EMPTY ARRAY (no error); only a
non-object, non-array body fails, with an error naming the top-level
`typeof`. -/
theorem C1_normalizer_policy :
    (∀ first rest ps, first.getField "Products" = some (Json.arr ps) →
      normalizeProducts (Json.arr (first :: rest)) = Except.ok ps)
    ∧ (∀ fields, isArrayField (Json.obj fields) "Products" = true →
      normalizeProducts (Json.obj fields) =
        Except.ok (arrayAt (Json.obj fields) "Products"))
    ∧ (∀ fields k,
        possibleProductKeys.find? (isArrayField (Json.obj fields)) = some k →
      normalizeProducts (Json.obj fields) =
        Except.ok (arrayAt (Json.obj fields) k))
    ∧ (∀ fields,
        possibleProductKeys.find? (isArrayField (Json.obj fields)) = none →
      normalizeProducts (Json.obj fields) = Except.ok [])
    ∧ normalizeProducts Json.null = Except.error "Unexpected response type: object"
    ∧ (∀ n, normalizeProducts (Json.num n) =
        Except.error "Unexpected response type: number")
    ∧ (∀ s, normalizeProducts (Json.str s) =
        Except.error "Unexpected response type: string")
    ∧ (∀ b, normalizeProducts (Json.bool b) =
        Except.error "Unexpected response type: boolean") := by
  refine ⟨?_, ?_, ?_, ?_, rfl, fun n => rfl, fun s => rfl, fun b => rfl⟩
  · intro first rest ps h
    simp [normalizeProducts, h]
  · intro fields h
    have : possibleProductKeys.find? (isArrayField (Json.obj fields)) =
        some "Products" := by
      simp only [possibleProductKeys]
      exact List.find?_cons_of_pos _ h
    simp [normalizeProducts, this]
  · intro fields k h
    simp [normalizeProducts, h]
  · intro fields h
    simp [normalizeProducts, h]

/-- C1 witness: the amended theorem applied to the spec's own examples. -/
theorem C1_normalizer_policy_witness :
    normalizeProducts
        (Json.arr [Json.obj [("Products", Json.arr [Json.num 1])]]) =
      Except.ok [Json.num 1] :=
  C1_normalizer_policy.1 (Json.obj [("Products", Json.arr [Json.num 1])])
    [] [Json.num 1] rfl

/- ===== C2 ===== -/

/-- C2 (code bug): `createOrder` in `src/client.ts` never validates the
payload before the transport call — every payload, valid or not, is posted
(`transportCalled = true`), and the RESPONSE body is then parsed against the
order schema, so even the README's documented success response `{id: 567890}`
is rejected with a 400 validation error. -/
theorem C2_createOrder_posts_without_validation :
    (∀ order resp, (createOrder order resp).transportCalled = true)
    ∧ apliiqOrderOk badOrderExample = false
    ∧ (createOrder badOrderExample idResponse).transportCalled = true
    ∧ (createOrder exampleOrder idResponse).result =
        Except.error ⟨"Validation failed: ", 400, none⟩ := by
  refine ⟨fun order resp => ?_, rfl, rfl, rfl⟩
  unfold createOrder
  split <;> rfl

/- ===== C5 ===== -/

/-- C5 counterexample: contrary to the claim, a transport failure with an
available upstream response body is mapped WITHOUT the body as structured
detail — `handleError` in `src/client.ts` passes no `details` argument. -/
theorem C5_transport_error_drops_details :
    handleError (CaughtError.axios (some 404) none
        "Request failed with status code 404"
        (some (Json.obj [("message", Json.str "not found")]))) =
      ⟨"Request failed with status code 404", 404, none⟩ := rfl

/-- C5 (amended): every failure is mapped to a single `ApliiqError`,
classified in priority order by the `handleError` cases: a schema validation
failure maps to status 400 with the comma-joined violation messages; a
transport failure maps to the upstream status (500 when absent or zero) and
carries NO structured detail; anything else maps to status 500. -/
theorem C5_error_mapper :
    (∀ msgs, handleError (CaughtError.zod msgs) =
      ⟨"Validation failed: " ++ String.intercalate ", " msgs, 400, none⟩)
    ∧ (∀ dm fm d n, n ≠ 0 →
        (handleError (CaughtError.axios (some n) dm fm d)).statusCode = n)
    ∧ (∀ dm fm d,
        (handleError (CaughtError.axios none dm fm d)).statusCode = 500)
    ∧ (∀ st dm fm d,
        (handleError (CaughtError.axios st dm fm d)).details = none)
    ∧ (∀ m, handleError (CaughtError.jsError m) = ⟨m, 500, none⟩)
    ∧ handleError CaughtError.nonError = ⟨"Unknown error", 500, none⟩ := by
  refine ⟨fun msgs => rfl, ?_, fun dm fm d => rfl, ?_, fun m => rfl, rfl⟩
  · intro dm fm d n hn
    simp [handleError, hn]
  · intro st dm fm d
    cases st <;> rfl

/-- C5 witness: the amended theorem applied at a concrete axios failure. -/
theorem C5_error_mapper_witness :
    (handleError (CaughtError.axios (some 404) none "boom" none)).statusCode =
      404 :=
  C5_error_mapper.2.1 none "boom" none 404 (by decide)

/- ===== C6 ===== -/

/-- C6: order validation rejects a one-decimal price (`"45.5"`) and accepts
the README line item with `"45.50"`; rejects SKU `"1998244S7A1"` (missing the
`APQ-` prefix) and accepts the README line item with `"APQ-1998244S7A1"`;
rejects a line item with neither truthy title nor name, and one with a
non-positive quantity; rejects a `"US"` shipping address with no
`province_code` and accepts the README address that has one. -/
theorem C6_order_validation_rules :
    (∀ j, j.getField "price" = some (Json.str "45.5") → lineItemOk j = false)
    ∧ lineItemOk exampleLineItem = true
    ∧ (∀ j, j.getField "sku" = some (Json.str "1998244S7A1") →
        lineItemOk j = false)
    ∧ (∀ j, strFieldTruthy j "title" = false → strFieldTruthy j "name" = false →
        lineItemOk j = false)
    ∧ (∀ j n, j.getField "quantity" = some (Json.num n) → n ≤ 0 →
        lineItemOk j = false)
    ∧ (∀ j, j.getField "country_code" = some (Json.str "US") →
        j.getField "province_code" = none → shippingAddressOk j = false)
    ∧ shippingAddressOk exampleUSAddress = true := by
  refine ⟨?_, rfl, ?_, ?_, ?_, ?_, rfl⟩
  · intro j h
    have hp : priceOk j = false := by unfold priceOk; rw [h]; rfl
    simp [lineItemOk, hp]
  · intro j h
    have hs : skuOk j = false := by unfold skuOk; rw [h]; rfl
    simp [lineItemOk, hs]
  · intro j h1 h2
    simp [lineItemOk, h1, h2]
  · intro j n h hn
    have hq : quantityOk j = false := by
      unfold quantityOk posNumOpt; rw [h]
      simpa using hn
    simp [lineItemOk, hq]
  · intro j h1 h2
    have hus : isUSAddress j = true := by unfold isUSAddress; rw [h1]; rfl
    have hpt : strFieldTruthy j "province_code" = false := by
      unfold strFieldTruthy; rw [h2]
    simp [shippingAddressOk, hus, hpt]

/-- C6 witness: the rejection clauses applied at concrete malformed inputs
(one-decimal price; SKU without the prefix; US address without a province
code). -/
theorem C6_order_validation_rules_witness :
    lineItemOk (Json.obj [("price", Json.str "45.5")]) = false
    ∧ lineItemOk (Json.obj [("sku", Json.str "1998244S7A1")]) = false
    ∧ shippingAddressOk (Json.obj [("country_code", Json.str "US")]) = false :=
  ⟨C6_order_validation_rules.1 _ rfl,
   C6_order_validation_rules.2.2.1 _ rfl,
   C6_order_validation_rules.2.2.2.2.2.1 _ rfl rfl⟩

/- ===== C3 ===== -/

theorem hexByte_length (b : Nat) : (hexByte b).length = 2 := rfl

theorem hexEncode_length (bytes : List Nat) :
    (hexEncode bytes).length = 2 * bytes.length := by
  induction bytes with
  | nil => rfl
  | cons b rest ih =>
    simp only [hexEncode, String.length_append, hexByte_length, ih,
      List.length_cons]
    ring

theorem hexDigit_isLowerHex (n : Nat) : isLowerHexChar (hexDigit n) = true := by
  by_cases h : n < 16
  · interval_cases n <;> decide
  · have hlen : hexDigitChars.length ≤ n := by
      have : hexDigitChars.length = 16 := rfl
      omega
    have : hexDigit n = '0' := by
      unfold hexDigit
      exact List.getD_eq_default _ _ hlen
    rw [this]; decide

theorem hexEncode_chars (bytes : List Nat) :
    (hexEncode bytes).data.all isLowerHexChar = true := by
  induction bytes with
  | nil => rfl
  | cons b rest ih =>
    simp only [hexEncode, String.data_append, List.all_append, ih,
      Bool.and_true]
    show (isLowerHexChar (hexDigit (b / 16 % 16)) &&
      (isLowerHexChar (hexDigit (b % 16)) && true)) = true
    simp [hexDigit_isLowerHex]

/-- C3 counterexample: the header VALUE produced by the interceptor is not the
bare `"<timestampSec>:<signature>:<appId>:<nonce>"` quadruple the claim
states — it is prefixed with `"x-apliiq-auth "` (and attached under the
`Authorization` header name). -/
theorem C3_header_value_not_bare_quadruple :
    (authHeader (fun _ _ => "SIG") "app" "secret" 100 (List.replicate 16 0)
        none).2 ≠
      "100:SIG:app:00000000000000000000000000000000" := by decide

/-- C3 (amended): the interceptor attaches exactly one authentication header,
under the fixed name `Authorization`, whose value is `"x-apliiq-auth "`
followed by `"<timestampSec>:<signature>:<appId>:<nonce>"`, where the
signature is the (base64 HMAC-SHA256) collaborator applied, keyed by the
shared secret, to the delimiter-free concatenation of appId, the decimal
timestamp, the nonce and the base64 of the serialized body; the nonce is the
lowercase-hex encoding of the 16 random bytes (32 hex characters), and the
signed body is the base64 of the empty string when there is no body. -/
theorem C3_auth_header (hmacBase64 : String → String → String)
    (appId sharedSecret : String) (nowSec : Nat) (nonceBytes : List Nat)
    (serializedBody : Option String) :
    (authHeader hmacBase64 appId sharedSecret nowSec nonceBytes
        serializedBody =
      ("Authorization",
       "x-apliiq-auth " ++ toString nowSec ++ ":"
         ++ hmacBase64 sharedSecret
              (appId ++ toString nowSec ++ hexEncode nonceBytes
                ++ base64Encode (strBytes (serializedBody.getD "")))
         ++ ":" ++ appId ++ ":" ++ hexEncode nonceBytes))
    ∧ (nonceBytes.length = 16 →
        (hexEncode nonceBytes).length = 32
        ∧ (hexEncode nonceBytes).data.all isLowerHexChar = true)
    ∧ (serializedBody = none →
        base64Encode (strBytes (serializedBody.getD "")) = "") := by
  refine ⟨?_, fun h => ⟨?_, hexEncode_chars nonceBytes⟩, fun h => ?_⟩
  · cases serializedBody <;> rfl
  · rw [hexEncode_length, h]
  · subst h; rfl

/-- C3 witness: the amended theorem applied at concrete inputs, discharging
the 16-byte-nonce and empty-body hypotheses. -/
theorem C3_auth_header_witness :
    (hexEncode (List.replicate 16 255)).length = 32
    ∧ (hexEncode (List.replicate 16 255)).data.all isLowerHexChar = true :=
  (C3_auth_header (fun _ _ => "SIG") "app" "secret" 100
    (List.replicate 16 255) none).2.1 (by decide)

/- ===== Cache lemmas ===== -/

theorem Cache.maxEntries_set (c : Cache) (k : String) (v : Json) (ttl now : Nat) :
    (c.set k v ttl now).maxEntries = c.maxEntries := rfl

theorem Cache.length_set_le (c : Cache) (k : String) (v : Json) (ttl now : Nat) :
    (c.set k v ttl now).entries.length ≤ c.entries.length + 1 := by
  unfold Cache.set
  calc (((k, (⟨v, now, ttl⟩ : CacheEntry)) ::
          c.entries.filter (fun p => p.1 != k)).take c.maxEntries).length
      ≤ ((k, (⟨v, now, ttl⟩ : CacheEntry)) ::
          c.entries.filter (fun p => p.1 != k)).length := by
        simpa using List.length_take_le _ _
    _ = (c.entries.filter (fun p => p.1 != k)).length + 1 := by simp
    _ ≤ c.entries.length + 1 := by
        have := List.length_filter_le (fun p => p.1 != k) c.entries
        omega

theorem Cache.lookup_set_self (c : Cache) (k : String) (v : Json) (ttl now : Nat)
    (hmax : 1 ≤ c.maxEntries) :
    alistLookup (c.set k v ttl now).entries k = some ⟨v, now, ttl⟩ := by
  unfold Cache.set
  obtain ⟨m, hm⟩ : ∃ m, c.maxEntries = m + 1 := by
    cases h : c.maxEntries with
    | zero => omega
    | succ m => exact ⟨m, rfl⟩
  simp [hm, List.take_succ_cons, alistLookup]

theorem Cache.lookup_set_ne (c : Cache) (k : String) (v : Json)
    (ttl now : Nat) (k' : String) (h : k' ≠ k)
    (hcap : c.entries.length + 1 ≤ c.maxEntries) :
    alistLookup (Cache.set c k v ttl now).entries k' =
      alistLookup c.entries k' := by
  unfold Cache.set
  have hlen : ((k, (⟨v, now, ttl⟩ : CacheEntry)) ::
      c.entries.filter (fun p => p.1 != k)).length ≤ c.maxEntries := by
    have := List.length_filter_le (fun p => p.1 != k) c.entries
    simp only [List.length_cons]
    omega
  rw [List.take_of_length_le hlen]
  simp only [alistLookup]
  rw [if_neg (Ne.symm h)]
  exact alistLookup_filter_ne _ _ _ h

theorem Cache.peek_set_self (c : Cache) (k : String) (v : Json)
    (ttl now now' : Nat) (hmax : 1 ≤ c.maxEntries)
    (hfresh : now' - now ≤ ttl) :
    (c.set k v ttl now).peek k now' = some v := by
  unfold Cache.peek
  rw [Cache.lookup_set_self c k v ttl now hmax]
  have : (⟨v, now, ttl⟩ : CacheEntry).staleAt now' = false := by
    simp [CacheEntry.staleAt]
    omega
  simp [this]

theorem Cache.peek_set_self_stale (c : Cache) (k : String) (v : Json)
    (ttl t0 t1 : Nat) (h : ttl < t1 - t0) :
    (c.set k v ttl t0).peek k t1 = none := by
  unfold Cache.peek Cache.set
  cases hm : c.maxEntries with
  | zero => simp [alistLookup]
  | succ m =>
    simp only [List.take_succ_cons, alistLookup, if_pos rfl]
    have : (⟨v, t0, ttl⟩ : CacheEntry).staleAt t1 = true := by
      simp [CacheEntry.staleAt]
      omega
    simp [this]

theorem Cache.peek_delete_self (c : Cache) (k : String) (now : Nat) :
    (c.delete k).peek k now = none := by
  unfold Cache.peek Cache.delete
  rw [alistLookup_filter_self]

theorem Cache.peek_delete_ne (c : Cache) (k k' : String) (now : Nat)
    (h : k' ≠ k) :
    (c.delete k).peek k' now = c.peek k' now := by
  unfold Cache.peek Cache.delete
  rw [alistLookup_filter_ne _ _ _ h]

theorem Cache.foldl_delete_peek_not_mem (ks : List String) (c : Cache)
    (k : String) (now : Nat) (h : k ∉ ks) :
    (ks.foldl Cache.delete c).peek k now = c.peek k now := by
  induction ks generalizing c with
  | nil => rfl
  | cons a ks ih =>
    simp only [List.mem_cons, not_or] at h
    simp only [List.foldl_cons]
    rw [ih _ h.2, Cache.peek_delete_ne _ _ _ _ h.1]

theorem Cache.foldl_delete_peek_mem (ks : List String) (c : Cache)
    (k : String) (now : Nat) (h : k ∈ ks) :
    (ks.foldl Cache.delete c).peek k now = none := by
  induction ks generalizing c with
  | nil => cases h
  | cons a ks ih =>
    simp only [List.foldl_cons]
    by_cases hk : k ∈ ks
    · exact ih _ hk
    · have : k = a := by
        rcases List.mem_cons.mp h with h1 | h2
        · exact h1
        · exact absurd h2 hk
      subst this
      rw [Cache.foldl_delete_peek_not_mem _ _ _ _ hk,
        Cache.peek_delete_self]

theorem Cache.peek_eq_none_of_not_mem_keys (c : Cache) (k : String) (now : Nat)
    (h : k ∉ c.keysList) :
    c.peek k now = none := by
  unfold Cache.peek
  rw [alistLookup_eq_none_of_not_mem _ _ h]

/- ===== C8 ===== -/

/-- C8: for every cache entry, a read after `ttlMs` has elapsed since
insertion (`now - insertedAt > ttlMs`) returns absent — for both `get`-style
reads (`peek`) and `has` — even though the key was never deleted.  The cache
store is modelled from the spec (section 3 / 4.2) since `lru-cache` is an
external dependency. -/
theorem C8_ttl_expiry (c : Cache) (k : String) (v : Json) (ttl t0 t1 : Nat)
    (h : ttl < t1 - t0) :
    (c.set k v ttl t0).peek k t1 = none
    ∧ (c.set k v ttl t0).has k t1 = false := by
  have hp := Cache.peek_set_self_stale c k v ttl t0 t1 h
  exact ⟨hp, by simp [Cache.has, hp]⟩

/-- C8 witness: a concrete entry with a 5ms TTL inserted at time 0 is absent
at time 10. -/
theorem C8_ttl_expiry_witness :
    (emptyCache.set "apliiq:products:all" (Json.arr []) 5 0).peek
        "apliiq:products:all" 10 = none
    ∧ (emptyCache.set "apliiq:products:all" (Json.arr []) 5 0).has
        "apliiq:products:all" 10 = false :=
  C8_ttl_expiry emptyCache "apliiq:products:all" (Json.arr []) 5 0 10
    (by decide)

/- ===== C9 ===== -/

/-- C9: `clearProductCache id` removes exactly `product:<id>`'s entry,
leaving every other key (the list key included) unchanged;
`clearProductsCache` removes the list entry and every key in the
`apliiq:product:` namespace while leaving every other key unchanged; both are
no-ops (and in particular cannot throw) when caching is disabled. -/
theorem C9_clear_cache_frame :
    (∀ cfg c id k now, cacheEnabled cfg = true →
      k ≠ productKey (toString id) →
      (clearProductCache cfg c id).peek k now = c.peek k now)
    ∧ (∀ cfg c id now, cacheEnabled cfg = true →
      (clearProductCache cfg c id).peek (productKey (toString id)) now = none)
    ∧ (∀ cfg c now, cacheEnabled cfg = true →
      (clearProductsCache cfg c).peek listKey now = none)
    ∧ (∀ cfg c k now, cacheEnabled cfg = true →
      strStartsWith k "apliiq:product:" = true →
      (clearProductsCache cfg c).peek k now = none)
    ∧ (∀ cfg c k now, cacheEnabled cfg = true → k ≠ listKey →
      strStartsWith k "apliiq:product:" = false →
      (clearProductsCache cfg c).peek k now = c.peek k now)
    ∧ (∀ cfg c id, cacheEnabled cfg = false → clearProductCache cfg c id = c)
    ∧ (∀ cfg c, cacheEnabled cfg = false → clearProductsCache cfg c = c) := by
  have hmemiff : ∀ (c1 : Cache) k, strStartsWith k "apliiq:product:" = true →
      (k ∈ c1.keysList.filter (fun k => strStartsWith k "apliiq:product:") ↔
        k ∈ c1.keysList) := by
    intro c1 k hk
    constructor
    · intro hm; exact (List.mem_filter.mp hm).1
    · intro hm; exact List.mem_filter.mpr ⟨hm, hk⟩
  refine ⟨?_, ?_, ?_, ?_, ?_, ?_, ?_⟩
  · intro cfg c id k now he hk
    simp only [clearProductCache, he, if_true]
    exact Cache.peek_delete_ne _ _ _ _ hk
  · intro cfg c id now he
    simp only [clearProductCache, he, if_true]
    exact Cache.peek_delete_self _ _ _
  · intro cfg c now he
    simp only [clearProductsCache, he, if_true]
    by_cases hm : listKey ∈ (c.delete listKey).keysList.filter
        (fun k => strStartsWith k "apliiq:product:")
    · exact Cache.foldl_delete_peek_mem _ _ _ _ hm
    · rw [Cache.foldl_delete_peek_not_mem _ _ _ _ hm,
        Cache.peek_delete_self]
  · intro cfg c k now he hk
    simp only [clearProductsCache, he, if_true]
    by_cases hm : k ∈ (c.delete listKey).keysList
    · exact Cache.foldl_delete_peek_mem _ _ _ _
        ((hmemiff (c.delete listKey) k hk).mpr hm)
    · rw [Cache.foldl_delete_peek_not_mem _ _ _ _
        (fun hx => hm ((hmemiff (c.delete listKey) k hk).mp hx))]
      exact Cache.peek_eq_none_of_not_mem_keys _ _ _ hm
  · intro cfg c k now he hk1 hk2
    simp only [clearProductsCache, he, if_true]
    have hnm : k ∉ (c.delete listKey).keysList.filter
        (fun k => strStartsWith k "apliiq:product:") := by
      intro hm
      have := (List.mem_filter.mp hm).2
      rw [hk2] at this
      cases this
    rw [Cache.foldl_delete_peek_not_mem _ _ _ _ hnm]
    exact Cache.peek_delete_ne _ _ _ _ hk1
  · intro cfg c id he
    simp [clearProductCache, he]
  · intro cfg c he
    simp [clearProductsCache, he]

/-- C9 witness: concrete applications — clearing product 162 leaves the list
key untouched and empties `product:162`; the disabled-cache operations are
no-ops. -/
theorem C9_clear_cache_frame_witness :
    (clearProductCache cfgCacheOn
        (emptyCache.set listKey (Json.arr []) 5 0) 162).peek listKey 0 =
      (emptyCache.set listKey (Json.arr []) 5 0).peek listKey 0
    ∧ (clearProductCache cfgCacheOn emptyCache 162).peek
        (productKey (toString (162 : Int))) 0 = none
    ∧ clearProductCache cfgNoCache emptyCache 162 = emptyCache :=
  ⟨C9_clear_cache_frame.1 cfgCacheOn _ 162 listKey 0 rfl (by decide),
   C9_clear_cache_frame.2.1 cfgCacheOn emptyCache 162 0 rfl,
   C9_clear_cache_frame.2.2.2.2.2.1 cfgNoCache emptyCache 162 rfl⟩

/- ===== C4 ===== -/

/-- C4 counterexample: contrary to the claim, `getProducts` returns the
normalized list without validating its elements — here a list containing the
empty object, which violates `ProductSchema`, is returned successfully. -/
theorem C4_malformed_element_returned :
    (getProducts cfgNoCache emptyCache 0
        (Json.arr [Json.obj [("Products", Json.arr [Json.obj []])]])).result =
      Except.ok [Json.obj []]
    ∧ productOk (Json.obj []) = false := ⟨rfl, rfl⟩

/-- C4 (amended): `getProducts` performs NO schema validation on the
normalized list — whenever normalization succeeds (and the call is not served
from cache), the elements are returned to the caller exactly as extracted,
malformed or not; no element can fail the batch. -/
theorem C4_no_element_validation (cfg : ApliiqConfig) (c : Cache) (now : Nat)
    (body : Json) (ps : List Json)
    (hnorm : normalizeProducts body = Except.ok ps)
    (hnohit : cacheEnabled cfg = true → c.has listKey now = false) :
    (getProducts cfg c now body).result = Except.ok ps := by
  have hcond : (cacheEnabled cfg && c.has listKey now) = false := by
    cases h : cacheEnabled cfg with
    | false => simp
    | true => rw [hnohit h]; simp
  cases h2 : cacheEnabled cfg with
  | false => simp [getProducts, hcond, hnorm, h2]
  | true => simp [getProducts, hcond, hnorm, h2, hnohit h2]

/-- C4 witness: the amended theorem applied at a concrete body. -/
theorem C4_no_element_validation_witness :
    (getProducts cfgNoCache emptyCache 0
        (Json.arr [Json.obj [("Products", Json.arr [Json.num 7])]])).result =
      Except.ok [Json.num 7] :=
  C4_no_element_validation cfgNoCache emptyCache 0 _ _ rfl (fun _ => rfl)

/- ===== C10 ===== -/

/-- C10: with caching enabled, an object body containing none of the known
product-list fields makes `getProducts` return the empty array and cache it
under the list key, so a later `getProducts` call while the entry is fresh
returns the empty list from cache without a transport call. -/
theorem C10_unknown_object_shape_cached (cfg : ApliiqConfig) (c : Cache)
    (now now' : Nat) (fields : List (String × Json))
    (henabled : cacheEnabled cfg = true)
    (hmiss : c.has listKey now = false)
    (hnone : possibleProductKeys.find? (isArrayField (Json.obj fields)) = none)
    (hmax : 1 ≤ c.maxEntries)
    (hfresh : now' - now ≤ listTtl cfg) :
    (getProducts cfg c now (Json.obj fields)).result = Except.ok []
    ∧ (getProducts cfg c now (Json.obj fields)).transportCalled = true
    ∧ (getProducts cfg c now (Json.obj fields)).cache.peek listKey now' =
        some (Json.arr [])
    ∧ ∀ body2,
        (getProducts cfg (getProducts cfg c now (Json.obj fields)).cache now'
          body2).result = Except.ok []
        ∧ (getProducts cfg (getProducts cfg c now (Json.obj fields)).cache now'
          body2).transportCalled = false := by
  have hnorm : normalizeProducts (Json.obj fields) = Except.ok [] := by
    simp [normalizeProducts, hnone]
  have hcond : (cacheEnabled cfg && c.has listKey now) = false := by
    rw [hmiss]; simp
  have hres : getProducts cfg c now (Json.obj fields) =
      { result := Except.ok [],
        cache := c.set listKey (Json.arr []) (listTtl cfg) now,
        transportCalled := true } := by
    simp [getProducts, hcond, hnorm, henabled, hmiss]
  have hpeek : (c.set listKey (Json.arr []) (listTtl cfg) now).peek listKey
      now' = some (Json.arr []) :=
    Cache.peek_set_self c listKey (Json.arr []) (listTtl cfg) now now' hmax
      hfresh
  have hhas : (c.set listKey (Json.arr []) (listTtl cfg) now).has listKey
      now' = true := by simp [Cache.has, hpeek]
  refine ⟨by rw [hres], by rw [hres], by rw [hres]; exact hpeek, ?_⟩
  intro body2
  rw [hres]
  constructor <;> simp [getProducts, henabled, hhas, hpeek, asProductList]

/-- C10 witness: the theorem applied at a concrete configuration, cache, and
body (`{foo: 1}`), discharging every hypothesis. -/
theorem C10_unknown_object_shape_cached_witness :
    (getProducts cfgCacheOn emptyCache 0
        (Json.obj [("foo", Json.num 1)])).result = Except.ok []
    ∧ (getProducts cfgCacheOn
        (getProducts cfgCacheOn emptyCache 0
          (Json.obj [("foo", Json.num 1)])).cache 0 Json.null).transportCalled =
      false :=
  ⟨(C10_unknown_object_shape_cached cfgCacheOn emptyCache 0 0
      [("foo", Json.num 1)] rfl rfl rfl (by decide) (by decide)).1,
   ((C10_unknown_object_shape_cached cfgCacheOn emptyCache 0 0
      [("foo", Json.num 1)] rfl rfl rfl (by decide) (by decide)).2.2.2
      Json.null).2⟩

/- ===== C7 ===== -/

theorem productKey_ne_listKey (s : String) : productKey s ≠ listKey := by
  intro h
  have hd := congrArg String.data h
  unfold productKey listKey at hd
  rw [String.data_append] at hd
  have hlen : ("apliiq:product:".data).length = 15 := by decide
  have ht := congrArg (List.take 15) hd
  rw [List.take_left' hlen] at ht
  have hne : ("apliiq:product:".data : List Char) ≠
      ("apliiq:products:all".data).take 15 := by decide
  exact hne ht

theorem productKey_inj {s t : String} (h : productKey s = productKey t) :
    s = t := by
  have hd := congrArg String.data h
  unfold productKey at hd
  rw [String.data_append, String.data_append] at hd
  exact String.ext (List.append_cancel_left hd)

theorem setStep_maxEntries (cfg : ApliiqConfig) (now : Nat) (acc : Cache)
    (p : Json) : (setStep cfg now acc p).maxEntries = acc.maxEntries := by
  unfold setStep
  cases hid : p.getField "Id" with
  | none => rfl
  | some idv =>
    by_cases ht : jsTruthy idv <;> simp [ht, Cache.maxEntries_set]

theorem setStep_length_le (cfg : ApliiqConfig) (now : Nat) (acc : Cache)
    (p : Json) :
    (setStep cfg now acc p).entries.length ≤ acc.entries.length + 1 := by
  unfold setStep
  cases hid : p.getField "Id" with
  | none => exact Nat.le_succ _
  | some idv =>
    by_cases ht : jsTruthy idv
    · simpa [ht] using Cache.length_set_le acc _ p (productTtl cfg) now
    · simp [ht]

/-- Characterization of the per-product cache population loop of
`getProducts`: for any key `K`, either no element of the list writes `K` and
the association is unchanged, or the entry at `K` is a fresh entry holding
one of the list's elements whose truthy `Id` maps to `K`. -/
theorem foldl_setStep_lookup (cfg : ApliiqConfig) (now : Nat) (K : String)
    (l : List Json) :
    ∀ acc : Cache, acc.entries.length + l.length ≤ acc.maxEntries →
    ((alistLookup (l.foldl (setStep cfg now) acc).entries K =
        alistLookup acc.entries K)
      ∧ ∀ p ∈ l, ∀ idv, p.getField "Id" = some idv → jsTruthy idv = true →
          productKey (jsToString idv) ≠ K)
    ∨ (∃ q ∈ l, ∃ idv, q.getField "Id" = some idv ∧ jsTruthy idv = true
        ∧ productKey (jsToString idv) = K
        ∧ alistLookup (l.foldl (setStep cfg now) acc).entries K =
            some ⟨q, now, productTtl cfg⟩) := by
  induction l with
  | nil =>
    intro acc _
    exact Or.inl ⟨rfl, by simp⟩
  | cons p rest ih =>
    intro acc h
    have hcap1 : acc.entries.length + 1 ≤ acc.maxEntries := by
      simp only [List.length_cons] at h
      omega
    have hstep_max := setStep_maxEntries cfg now acc p
    have hstep_len := setStep_length_le cfg now acc p
    have hcap' : (setStep cfg now acc p).entries.length + rest.length ≤
        (setStep cfg now acc p).maxEntries := by
      rw [hstep_max]
      simp only [List.length_cons] at h
      omega
    simp only [List.foldl_cons]
    rcases ih (setStep cfg now acc p) hcap' with ⟨heq, hno⟩ |
      ⟨q, hq, idv, h1, h2, h3, h4⟩
    · -- no rest element writes K
      cases hid : p.getField "Id" with
      | none =>
        have hacc : setStep cfg now acc p = acc := by unfold setStep; rw [hid]
        rw [hacc] at heq ⊢
        refine Or.inl ⟨heq, ?_⟩
        intro p' hp' idv' hidv' htr'
        rcases List.mem_cons.mp hp' with hp1 | hp2
        · subst hp1; rw [hid] at hidv'; cases hidv'
        · exact hno p' hp2 idv' hidv' htr'
      | some idv =>
        by_cases ht : jsTruthy idv
        · by_cases hK : productKey (jsToString idv) = K
          · -- p itself writes K, and nothing later overwrites it
            have hacc : setStep cfg now acc p =
                acc.set (productKey (jsToString idv)) p (productTtl cfg) now := by
              unfold setStep; rw [hid]; simp [ht]
            rw [hacc] at heq ⊢
            refine Or.inr ⟨p, List.mem_cons_self p rest, idv, hid, ht, hK, ?_⟩
            rw [heq, hK]
            exact Cache.lookup_set_self acc K p (productTtl cfg) now
              (by omega)
          · -- p writes some other key
            have hacc : setStep cfg now acc p =
                acc.set (productKey (jsToString idv)) p (productTtl cfg) now := by
              unfold setStep; rw [hid]; simp [ht]
            rw [hacc] at heq ⊢
            rw [Cache.lookup_set_ne acc _ p (productTtl cfg) now K
              (fun hx => hK hx.symm) hcap1] at heq
            refine Or.inl ⟨heq, ?_⟩
            intro p' hp' idv' hidv' htr'
            rcases List.mem_cons.mp hp' with hp1 | hp2
            · subst hp1
              rw [hid] at hidv'
              cases hidv'
              exact hK
            · exact hno p' hp2 idv' hidv' htr'
        · have hacc : setStep cfg now acc p = acc := by
            unfold setStep; rw [hid]; simp [ht]
          rw [hacc] at heq ⊢
          refine Or.inl ⟨heq, ?_⟩
          intro p' hp' idv' hidv' htr'
          rcases List.mem_cons.mp hp' with hp1 | hp2
          · subst hp1
            rw [hid] at hidv'
            cases hidv'
            rw [htr'] at ht
            exact absurd rfl ht
          · exact hno p' hp2 idv' hidv' htr'
    · exact Or.inr ⟨q, List.mem_cons_of_mem p hq, idv, h1, h2, h3, h4⟩

/-- C7: with caching enabled and capacity to spare, a product-list fetch that
misses the cache populates the list key (batch TTL) and one per-product key
for every returned product with truthy `Id` — all from the single upstream
call — and while those entries are fresh, a `getProduct` call for any such
numeric identifier is a cache hit: it performs no transport call and returns
the cached product. -/
theorem C7_list_fetch_populates_cache (cfg : ApliiqConfig) (c : Cache)
    (now now' : Nat) (body : Json) (ps : List Json) (r : ProductsResult)
    (henabled : cacheEnabled cfg = true)
    (hmiss : c.has listKey now = false)
    (hnorm : normalizeProducts body = Except.ok ps)
    (hcap : c.entries.length + ps.length + 1 ≤ c.maxEntries)
    (hfreshL : now' - now ≤ listTtl cfg)
    (hfreshP : now' - now ≤ productTtl cfg)
    (hr : getProducts cfg c now body = r) :
    r.transportCalled = true
    ∧ r.result = Except.ok ps
    ∧ r.cache.peek listKey now' = some (Json.arr ps)
    ∧ ∀ p ∈ ps, ∀ n : Int, p.getField "Id" = some (Json.num n) → n ≠ 0 →
        ∃ q, r.cache.peek (productKey (toString n)) now' = some q
          ∧ q ∈ ps
          ∧ (∃ idv, q.getField "Id" = some idv ∧ jsTruthy idv = true
              ∧ jsToString idv = toString n)
          ∧ (getProduct cfg r.cache now' n Json.null).transportCalled = false
          ∧ (getProduct cfg r.cache now' n Json.null).result = Except.ok q := by
  subst hr
  have hcond : (cacheEnabled cfg && c.has listKey now) = false := by
    rw [hmiss]; simp
  have hres : getProducts cfg c now body =
      { result := Except.ok ps,
        cache := ps.foldl (setStep cfg now)
          (c.set listKey (Json.arr ps) (listTtl cfg) now),
        transportCalled := true } := by
    simp [getProducts, hcond, hnorm, henabled, hmiss]
  rw [hres]
  have hmax1 : 1 ≤ c.maxEntries := by omega
  have hlen1 : (c.set listKey (Json.arr ps) (listTtl cfg) now).entries.length ≤
      c.entries.length + 1 :=
    Cache.length_set_le c listKey (Json.arr ps) (listTtl cfg) now
  have hcap1 : (c.set listKey (Json.arr ps) (listTtl cfg) now).entries.length +
      ps.length ≤
      (c.set listKey (Json.arr ps) (listTtl cfg) now).maxEntries := by
    rw [Cache.maxEntries_set]
    omega
  have hlistlookup : alistLookup
      (ps.foldl (setStep cfg now)
        (c.set listKey (Json.arr ps) (listTtl cfg) now)).entries listKey =
      some ⟨Json.arr ps, now, listTtl cfg⟩ := by
    rcases foldl_setStep_lookup cfg now listKey ps _ hcap1 with
      ⟨heq, _⟩ | ⟨q, _, idv, _, _, h3, _⟩
    · rw [heq]
      exact Cache.lookup_set_self c listKey (Json.arr ps) (listTtl cfg) now
        hmax1
    · exact absurd h3 (productKey_ne_listKey _)
  have hlistpeek : (ps.foldl (setStep cfg now)
      (c.set listKey (Json.arr ps) (listTtl cfg) now)).peek listKey now' =
      some (Json.arr ps) := by
    unfold Cache.peek
    rw [hlistlookup]
    have hst : (⟨Json.arr ps, now, listTtl cfg⟩ : CacheEntry).staleAt now' =
        false := by
      simp only [CacheEntry.staleAt, decide_eq_false_iff_not, not_lt]
      omega
    simp [hst]
  refine ⟨rfl, rfl, hlistpeek, ?_⟩
  intro p hp n hpn hn0
  have htr : jsTruthy (Json.num n) = true := by simp [jsTruthy, hn0]
  rcases foldl_setStep_lookup cfg now (productKey (toString n)) ps _ hcap1 with
    ⟨_, hno⟩ | ⟨q, hq, idv, h1, h2, h3, h4⟩
  · exact absurd rfl (hno p hp (Json.num n) hpn htr)
  · have hpeekq : (ps.foldl (setStep cfg now)
        (c.set listKey (Json.arr ps) (listTtl cfg) now)).peek
        (productKey (toString n)) now' = some q := by
      unfold Cache.peek
      rw [h4]
      have hst : (⟨q, now, productTtl cfg⟩ : CacheEntry).staleAt now' =
          false := by
        simp only [CacheEntry.staleAt, decide_eq_false_iff_not, not_lt]
        omega
      simp [hst]
    have hid' : jsToString idv = toString n := productKey_inj h3
    refine ⟨q, hpeekq, hq, ⟨idv, h1, h2, hid'⟩, ?_, ?_⟩
    · simp [getProduct, henabled, Cache.has, hpeekq]
    · simp [getProduct, henabled, Cache.has, hpeekq]

/-- C7 witness: a concrete list fetch (two products, `Id` 162 and 163)
populates the cache so that `getProduct 162` is a hit that performs no
transport call and returns the cached product. -/
theorem C7_list_fetch_populates_cache_witness :
    ∃ q, (getProducts cfgCacheOn emptyCache 0
        (Json.obj [("Products",
          Json.arr [Json.obj [("Id", Json.num 162)],
                    Json.obj [("Id", Json.num 163)]])])).cache.peek
        (productKey (toString (162 : Int))) 0 = some q
      ∧ q ∈ [Json.obj [("Id", Json.num 162)], Json.obj [("Id", Json.num 163)]]
      ∧ (∃ idv, q.getField "Id" = some idv ∧ jsTruthy idv = true
          ∧ jsToString idv = toString (162 : Int))
      ∧ (getProduct cfgCacheOn
          (getProducts cfgCacheOn emptyCache 0
            (Json.obj [("Products",
              Json.arr [Json.obj [("Id", Json.num 162)],
                        Json.obj [("Id", Json.num 163)]])])).cache 0 162
          Json.null).transportCalled = false
      ∧ (getProduct cfgCacheOn
          (getProducts cfgCacheOn emptyCache 0
            (Json.obj [("Products",
              Json.arr [Json.obj [("Id", Json.num 162)],
                        Json.obj [("Id", Json.num 163)]])])).cache 0 162
          Json.null).result = Except.ok q :=
  (C7_list_fetch_populates_cache cfgCacheOn emptyCache 0 0
      (Json.obj [("Products",
        Json.arr [Json.obj [("Id", Json.num 162)],
                  Json.obj [("Id", Json.num 163)]])])
      [Json.obj [("Id", Json.num 162)], Json.obj [("Id", Json.num 163)]]
      _ rfl rfl rfl (by decide) (by decide) (by decide) rfl).2.2.2
    (Json.obj [("Id", Json.num 162)]) (by simp) 162 rfl (by decide)
